import Mathlib

/-!
Verification of the HTTP/2 SETTINGS frame codec (`src/frame/settings.rs`).

The Rust source is shallowly embedded: machine integers (`u8`, `u16`, `u32`)
become `Nat` with explicit bounds or reductions where overflow could matter,
fallible operations become `Option` / `Except`, and the panic in the
`set_max_frame_size` setter becomes `Option` (with `none` marking the panic).

Parts of the repository that are referenced but not present under `src/`
(the `define_enum_with_values!` macro output and the frame-head collaborator)
are modelled from the specification; each such definition carries a doc
comment starting with "Modelled from the spec".
-/

namespace H2

/-- The setting identifier enum from `define_enum_with_values!`: the eight
standard variants plus an open `Unknown` case carrying the raw 16-bit code. -/
inductive SettingId where
  | HeaderTableSize
  | EnablePush
  | MaxConcurrentStreams
  | InitialWindowSize
  | MaxFrameSize
  | MaxHeaderListSize
  | EnableConnectProtocol
  | NoRfc7540Priorities
  | Unknown (code : Nat)
deriving DecidableEq

namespace SettingId

/-- The wire code of an identifier (`From<SettingId> for u16`), following the
code assignments written in the enum declaration in the source. -/
def toCode : SettingId → Nat
  | .HeaderTableSize => 1
  | .EnablePush => 2
  | .MaxConcurrentStreams => 3
  | .InitialWindowSize => 4
  | .MaxFrameSize => 5
  | .MaxHeaderListSize => 6
  | .EnableConnectProtocol => 8
  | .NoRfc7540Priorities => 9
  | .Unknown c => c

/-- Modelled from the spec: the macro-generated total conversion from a raw
16-bit wire code to a `SettingId`; the eight standard codes map to their
variants and every other code maps to `Unknown code`. -/
def fromCode (code : Nat) : SettingId :=
  if code = 1 then .HeaderTableSize
  else if code = 2 then .EnablePush
  else if code = 3 then .MaxConcurrentStreams
  else if code = 4 then .InitialWindowSize
  else if code = 5 then .MaxFrameSize
  else if code = 6 then .MaxHeaderListSize
  else if code = 8 then .EnableConnectProtocol
  else if code = 9 then .NoRfc7540Priorities
  else .Unknown code

/-- Modelled from the spec: the macro-generated constant `MAX_ID`; the
reference domain fixes it at 15 (the in-source tests pin the same value). -/
def MAX_ID : Nat := 15

/-- Modelled from the spec: the macro-generated mask-bit function. A
representable code (1 through `MAX_ID`) maps to the unique bit `2 ^ code` of a
16-bit mask; code 0 and codes beyond `MAX_ID` map to mask 0. -/
def mask_id (id : SettingId) : Nat :=
  let c := id.toCode
  if c = 0 ∨ MAX_ID < c then 0 else 2 ^ c

/-- Modelled from the spec: the macro-generated canonical default order of the
eight standard identifiers. -/
def DEFAULT_IDS : List SettingId :=
  [.HeaderTableSize, .EnablePush, .MaxConcurrentStreams, .InitialWindowSize,
   .MaxFrameSize, .MaxHeaderListSize, .EnableConnectProtocol, .NoRfc7540Priorities]

/-- An identifier is standard when it is not the `Unknown` case. -/
def isStandard : SettingId → Bool
  | .Unknown _ => false
  | _ => true

end SettingId

/-- A `(identifier, 32-bit value)` pair, the atomic wire unit. -/
structure Setting where
  id : SettingId
  value : Nat
deriving DecidableEq

namespace Setting

/-- `Setting::from_id`: constructible only when the identifier is standard or
`Unknown code` with `0 < code ≤ MAX_ID`. -/
def from_id (id : SettingId) (value : Nat) : Option Setting :=
  match id with
  | .Unknown c =>
      if c = 0 ∨ SettingId.MAX_ID < c then none else some ⟨.Unknown c, value⟩
  | i => some ⟨i, value⟩

/-- `Setting::load`: parse a big-endian 16-bit code and a big-endian 32-bit
value from a 6-byte record, then defer to `from_id`. Bytes are reduced mod 256
to reflect their `u8` type. The source panics on a record shorter than 6 bytes
(a caller-contract violation, unreachable from `Settings::load`); the
embedding totalizes that case to `none`. -/
def load (raw : List Nat) : Option Setting :=
  match raw with
  | b0 :: b1 :: b2 :: b3 :: b4 :: b5 :: _ =>
      let id := (b0 % 256) * 256 + b1 % 256
      let val := ((b2 % 256) * 256 + b3 % 256) * 256 * 256
        + (b4 % 256) * 256 + b5 % 256
      Setting.from_id (SettingId.fromCode id) val
  | _ => none

/-- `Setting::encode`: the 16-bit code then the 32-bit value, big-endian. -/
def encodeBytes (st : Setting) : List Nat :=
  let k := st.id.toCode % (2 ^ 16)
  let v := st.value % (2 ^ 32)
  [k / 256, k % 256, v / 2 ^ 24, v / 2 ^ 16 % 256, v / 2 ^ 8 % 256, v % 256]

end Setting

/-- An ordered, deduplicated sequence of setting identifiers driving encode. -/
structure SettingsOrder where
  ids : List SettingId
deriving DecidableEq

/-- The builder for `SettingsOrder`: the accumulated sequence plus the 16-bit
seen-mask accumulator. -/
structure SettingsOrderBuilder where
  ids : List SettingId
  mask : Nat
deriving DecidableEq

/-- `SettingsOrder::builder`. -/
def SettingsOrder.builder : SettingsOrderBuilder := ⟨[], 0⟩

/-- `SettingsOrder::default`: the canonical order. -/
def SettingsOrder.default : SettingsOrder := ⟨SettingId.DEFAULT_IDS⟩

namespace SettingsOrderBuilder

/-- `SettingsOrderBuilder::push`: append `id` unless its mask bit is zero or
already present in the accumulator. -/
def push (b : SettingsOrderBuilder) (id : SettingId) : SettingsOrderBuilder :=
  let m := id.mask_id
  if m ≠ 0 then
    if b.mask &&& m = 0 then ⟨b.ids ++ [id], b.mask ||| m⟩
    else b
  else b

/-- `SettingsOrderBuilder::extend`: fold `push` over a sequence. -/
def extend (b : SettingsOrderBuilder) (l : List SettingId) : SettingsOrderBuilder :=
  l.foldl push b

/-- `SettingsOrderBuilder::build`: complete with the canonical default order
and freeze. -/
def build (b : SettingsOrderBuilder) : SettingsOrder :=
  ⟨(b.extend SettingId.DEFAULT_IDS).ids⟩

end SettingsOrderBuilder

/-- The deduplicated collection of unknown-identified settings. -/
structure ExperimentalSettings where
  settings : List Setting
deriving DecidableEq

/-- The builder for `ExperimentalSettings`. -/
structure ExperimentalSettingsBuilder where
  settings : List Setting
  mask : Nat
deriving DecidableEq

/-- `ExperimentalSettings::builder`. -/
def ExperimentalSettings.builder : ExperimentalSettingsBuilder := ⟨[], 0⟩

namespace ExperimentalSettingsBuilder

/-- `ExperimentalSettingsBuilder::push`: drop `none`, drop settings whose
identifier is not `Unknown`, drop settings whose code converts back to a
standard identifier, then insert keyed on the mask bit as the order builder
does. -/
def push (b : ExperimentalSettingsBuilder) (item : Option Setting) :
    ExperimentalSettingsBuilder :=
  match item with
  | none => b
  | some setting =>
    match setting.id with
    | .Unknown id =>
      match SettingId.fromCode id with
      | .Unknown _ =>
        let m := setting.id.mask_id
        if m ≠ 0 then
          if b.mask &&& m = 0 then ⟨b.settings ++ [setting], b.mask ||| m⟩
          else b
        else b
      | _ => b
    | _ => b

/-- `ExperimentalSettingsBuilder::extend`. -/
def extend (b : ExperimentalSettingsBuilder) (l : List (Option Setting)) :
    ExperimentalSettingsBuilder :=
  l.foldl push b

/-- `ExperimentalSettingsBuilder::build`. -/
def build (b : ExperimentalSettingsBuilder) : ExperimentalSettings :=
  ⟨b.settings⟩

end ExperimentalSettingsBuilder

/-- The single-bit ACK flag wrapper over the 8-bit flag byte. -/
structure SettingsFlags where
  bits : Nat
deriving DecidableEq

namespace SettingsFlags

/-- The ACK bit. -/
def ACK : Nat := 1

/-- The mask of defined bits. -/
def ALL : Nat := ACK

/-- `SettingsFlags::empty`. -/
def empty : SettingsFlags := ⟨0⟩

/-- `SettingsFlags::load`: mask to the defined bits. -/
def load (bits : Nat) : SettingsFlags := ⟨bits &&& ALL⟩

/-- `SettingsFlags::ack`. -/
def ack : SettingsFlags := ⟨ACK⟩

/-- `SettingsFlags::is_ack`. -/
def is_ack (f : SettingsFlags) : Bool := f.bits &&& ACK = ACK

end SettingsFlags

/-- Modelled from the spec: the frame kinds of the surrounding frame layer;
only the SETTINGS kind is relevant here. -/
inductive Kind where
  | Settings
  | Other (tag : Nat)
deriving DecidableEq

/-- Modelled from the spec: the frame-head collaborator, providing the frame
kind, the raw flag byte and the stream identifier. -/
structure Head where
  kind : Kind
  flag : Nat
  streamId : Nat
deriving DecidableEq

/-- The shared error type, restricted to the variants this codec produces. -/
inductive Error where
  | InvalidStreamId
  | InvalidPayloadLength
  | InvalidPayloadAckSettings
  | InvalidSettingValue
deriving DecidableEq

/-- The default value of SETTINGS_MAX_FRAME_SIZE and its range lower bound. -/
def DEFAULT_MAX_FRAME_SIZE : Nat := 16384

/-- MAX_FRAME_SIZE upper bound. -/
def MAX_MAX_FRAME_SIZE : Nat := 2 ^ 24 - 1

/-- INITIAL_WINDOW_SIZE upper bound. -/
def MAX_INITIAL_WINDOW_SIZE : Nat := 2 ^ 31 - 1

/-- The SETTINGS frame payload: the ACK flag, one optional value per standard
parameter, optional experimental settings and the emission order. -/
structure Settings where
  flags : SettingsFlags
  header_table_size : Option Nat
  enable_push : Option Nat
  max_concurrent_streams : Option Nat
  initial_window_size : Option Nat
  max_frame_size : Option Nat
  max_header_list_size : Option Nat
  enable_connect_protocol : Option Nat
  no_rfc7540_priorities : Option Nat
  experimental_settings : Option ExperimentalSettings
  settings_order : SettingsOrder
deriving DecidableEq

namespace Settings

/-- `Settings::default`: empty flags, all fields absent, canonical order. -/
def default : Settings :=
  ⟨SettingsFlags.empty, none, none, none, none, none, none, none, none, none,
   SettingsOrder.default⟩

/-- `Settings::ack`. -/
def ack : Settings := { default with flags := SettingsFlags.ack }

/-- `Settings::is_ack`. -/
def is_ack (s : Settings) : Bool := s.flags.is_ack

/-- `Settings::set_initial_window_size` (no range check in the source). -/
def set_initial_window_size (s : Settings) (size : Option Nat) : Settings :=
  { s with initial_window_size := size }

/-- `Settings::set_max_concurrent_streams`. -/
def set_max_concurrent_streams (s : Settings) (m : Option Nat) : Settings :=
  { s with max_concurrent_streams := m }

/-- `Settings::set_max_frame_size`: asserts the range
`[DEFAULT_MAX_FRAME_SIZE, MAX_MAX_FRAME_SIZE]` for a present value; the panic
of a failed assertion is embedded as `none`. -/
def set_max_frame_size (s : Settings) (size : Option Nat) : Option Settings :=
  match size with
  | some val =>
      if DEFAULT_MAX_FRAME_SIZE ≤ val ∧ val ≤ MAX_MAX_FRAME_SIZE then
        some { s with max_frame_size := some val }
      else none
  | none => some { s with max_frame_size := none }

/-- `Settings::set_max_header_list_size`. -/
def set_max_header_list_size (s : Settings) (size : Option Nat) : Settings :=
  { s with max_header_list_size := size }

/-- `Settings::set_enable_push` (a `bool`, stored as 0 or 1). -/
def set_enable_push (s : Settings) (enable : Bool) : Settings :=
  { s with enable_push := some (if enable then 1 else 0) }

/-- `Settings::set_enable_connect_protocol` (no range check in the source). -/
def set_enable_connect_protocol (s : Settings) (val : Option Nat) : Settings :=
  { s with enable_connect_protocol := val }

/-- `Settings::set_header_table_size`. -/
def set_header_table_size (s : Settings) (size : Option Nat) : Settings :=
  { s with header_table_size := size }

/-- `Settings::set_no_rfc7540_priorities` (a `bool`, stored as 0 or 1). -/
def set_no_rfc7540_priorities (s : Settings) (enable : Bool) : Settings :=
  { s with no_rfc7540_priorities := some (if enable then 1 else 0) }

/-- `Settings::set_experimental_settings`. -/
def set_experimental_settings (s : Settings) (e : ExperimentalSettings) : Settings :=
  { s with experimental_settings := some e }

/-- `Settings::set_settings_order`. -/
def set_settings_order (s : Settings) (o : SettingsOrder) : Settings :=
  { s with settings_order := o }

/-- One iteration of the dispatch loop in `Settings::load`: validate a parsed
setting against its identifier and store it, or fail the whole decode. -/
def applySetting (s : Settings) (st : Setting) : Except Error Settings :=
  match st.id with
  | .HeaderTableSize => .ok { s with header_table_size := some st.value }
  | .EnablePush =>
      if st.value = 0 ∨ st.value = 1 then
        .ok { s with enable_push := some st.value }
      else .error .InvalidSettingValue
  | .MaxConcurrentStreams => .ok { s with max_concurrent_streams := some st.value }
  | .InitialWindowSize =>
      if MAX_INITIAL_WINDOW_SIZE < st.value then .error .InvalidSettingValue
      else .ok { s with initial_window_size := some st.value }
  | .MaxFrameSize =>
      if DEFAULT_MAX_FRAME_SIZE ≤ st.value ∧ st.value ≤ MAX_MAX_FRAME_SIZE then
        .ok { s with max_frame_size := some st.value }
      else .error .InvalidSettingValue
  | .MaxHeaderListSize => .ok { s with max_header_list_size := some st.value }
  | .EnableConnectProtocol =>
      if st.value = 0 ∨ st.value = 1 then
        .ok { s with enable_connect_protocol := some st.value }
      else .error .InvalidSettingValue
  | .NoRfc7540Priorities =>
      if st.value = 0 ∨ st.value = 1 then
        .ok { s with no_rfc7540_priorities := some st.value }
      else .error .InvalidSettingValue
  | .Unknown _ => .ok s

/-- The `payload.chunks(6)` iteration of `Settings::load`: records that fail
`Setting::load` are skipped, a validation error aborts the fold. -/
def loadChunks (cs : List (List Nat)) (s : Settings) : Except Error Settings :=
  match cs with
  | [] => .ok s
  | c :: rest =>
    match Setting.load c with
    | none => loadChunks rest s
    | some st =>
      match applySetting s st with
      | .error e => .error e
      | .ok s1 => loadChunks rest s1

end Settings

/-- The slice iterator `payload.chunks(6)`: successive 6-byte chunks, the last
chunk possibly shorter. -/
def chunks6 : List Nat → List (List Nat)
  | [] => []
  | b0 :: b1 :: b2 :: b3 :: b4 :: b5 :: rest =>
      [b0, b1, b2, b3, b4, b5] :: chunks6 rest
  | l => [l]

namespace Settings

/-- `Settings::load`. The source also `debug_assert`s that the head kind is
SETTINGS, a no-op in release builds, so the kind is not inspected here. -/
def load (head : Head) (payload : List Nat) : Except Error Settings :=
  if head.streamId ≠ 0 then .error .InvalidStreamId
  else
    let flag := SettingsFlags.load head.flag
    if flag.is_ack then
      if payload ≠ [] then .error .InvalidPayloadLength
      else .ok Settings.ack
    else if payload.length % 6 ≠ 0 then .error .InvalidPayloadAckSettings
    else loadChunks (chunks6 payload) Settings.default

/-- The emission sequence of `Settings::for_each`: walk the settings order;
a standard identifier emits its field when present; an `Unknown` identifier
emits the attached experimental setting with that exact identifier, if any. -/
def forEachList (s : Settings) : List Setting :=
  s.settings_order.ids.flatMap fun id =>
    match id with
    | .HeaderTableSize =>
        match s.header_table_size with
        | some v => (Setting.from_id .HeaderTableSize v).toList
        | none => []
    | .EnablePush =>
        match s.enable_push with
        | some v => (Setting.from_id .EnablePush v).toList
        | none => []
    | .MaxConcurrentStreams =>
        match s.max_concurrent_streams with
        | some v => (Setting.from_id .MaxConcurrentStreams v).toList
        | none => []
    | .InitialWindowSize =>
        match s.initial_window_size with
        | some v => (Setting.from_id .InitialWindowSize v).toList
        | none => []
    | .MaxFrameSize =>
        match s.max_frame_size with
        | some v => (Setting.from_id .MaxFrameSize v).toList
        | none => []
    | .MaxHeaderListSize =>
        match s.max_header_list_size with
        | some v => (Setting.from_id .MaxHeaderListSize v).toList
        | none => []
    | .EnableConnectProtocol =>
        match s.enable_connect_protocol with
        | some v => (Setting.from_id .EnableConnectProtocol v).toList
        | none => []
    | .NoRfc7540Priorities =>
        match s.no_rfc7540_priorities with
        | some v => (Setting.from_id .NoRfc7540Priorities v).toList
        | none => []
    | .Unknown c =>
        match s.experimental_settings with
        | some es =>
            match es.settings.find? (fun st => st.id == SettingId.Unknown c) with
            | some st => [st]
            | none => []
        | none => []

/-- `Settings::payload_len`: 6 bytes per emitted setting. -/
def payload_len (s : Settings) : Nat := 6 * (s.forEachList).length

end Settings

/-- The output of `Settings::encode`: the frame head built by the source, the
payload length written into the head, and the payload bytes. -/
structure EncodedFrame where
  head : Head
  payloadLen : Nat
  payload : List Nat
deriving DecidableEq

/-- `Settings::encode`: head with SETTINGS kind, the flag byte and stream 0,
then every emitted setting encoded in sequence. -/
def Settings.encode (s : Settings) : EncodedFrame :=
  ⟨⟨Kind.Settings, s.flags.bits, 0⟩, s.payload_len,
   (s.forEachList).flatMap Setting.encodeBytes⟩

/-- Decidable equality of decode results, for concrete evaluation. -/
instance {ε α : Type} [DecidableEq ε] [DecidableEq α] : DecidableEq (Except ε α) := fun a b =>
  match a, b with
  | .ok x, .ok y =>
      if h : x = y then .isTrue (congrArg Except.ok h)
      else .isFalse (fun hh => h (Except.ok.inj hh))
  | .error x, .error y =>
      if h : x = y then .isTrue (congrArg Except.error h)
      else .isFalse (fun hh => h (Except.error.inj hh))
  | .ok _, .error _ => .isFalse (fun hh => Except.noConfusion hh)
  | .error _, .ok _ => .isFalse (fun hh => Except.noConfusion hh)

/-!
Reference definitions written from the words of the specification; the
theorems below compare the embedded source against them.
-/

/-- The per-identifier value domains as the specification words them:
free-form parameters accept any 32-bit value, boolean-like parameters accept
only 0 and 1, InitialWindowSize is capped at `2 ^ 31 - 1`, MaxFrameSize must
lie in `[16384, 2 ^ 24 - 1]`, and unknown identifiers are never an error. -/
def settingOk (st : Setting) : Bool :=
  match st.id with
  | .HeaderTableSize => true
  | .MaxConcurrentStreams => true
  | .MaxHeaderListSize => true
  | .EnablePush => st.value == 0 || st.value == 1
  | .EnableConnectProtocol => st.value == 0 || st.value == 1
  | .NoRfc7540Priorities => st.value == 0 || st.value == 1
  | .InitialWindowSize => decide (st.value ≤ 2 ^ 31 - 1)
  | .MaxFrameSize => decide (16384 ≤ st.value ∧ st.value ≤ 2 ^ 24 - 1)
  | .Unknown _ => true

/-- The standard field of `Settings` addressed by a standard identifier
(`none` for the `Unknown` case, which has no field). -/
def fieldVal (k : SettingId) (s : Settings) : Option Nat :=
  match k with
  | .HeaderTableSize => s.header_table_size
  | .EnablePush => s.enable_push
  | .MaxConcurrentStreams => s.max_concurrent_streams
  | .InitialWindowSize => s.initial_window_size
  | .MaxFrameSize => s.max_frame_size
  | .MaxHeaderListSize => s.max_header_list_size
  | .EnableConnectProtocol => s.enable_connect_protocol
  | .NoRfc7540Priorities => s.no_rfc7540_priorities
  | .Unknown _ => none

/-- The dispatch loop of `Settings::load` restricted to already-parsed
settings: the same fold as `Settings.loadChunks` without the byte layer. -/
def loadSettingsList (rs : List Setting) (s : Settings) : Except Error Settings :=
  match rs with
  | [] => .ok s
  | st :: rest =>
    match Settings.applySetting s st with
    | .error e => .error e
    | .ok s1 => loadSettingsList rest s1

/-- First-occurrence deduplication of identifiers relative to an
already-seen list, as the specification describes the order builder. -/
def orderKeep (seen : List SettingId) : List SettingId → List SettingId
  | [] => []
  | a :: l => if a ∈ seen then orderKeep seen l else a :: orderKeep (a :: seen) l

/-- First-occurrence deduplication of settings keyed on the wire code,
relative to an already-seen list of codes. -/
def keepFirstAux (seen : List Nat) : List Setting → List Setting
  | [] => []
  | st :: l =>
    if st.id.toCode ∈ seen then keepFirstAux seen l
    else st :: keepFirstAux (st.id.toCode :: seen) l

/-- First-occurrence deduplication of settings keyed on the wire code. -/
def keepFirstByCode (l : List Setting) : List Setting := keepFirstAux [] l

/-- The eight standard wire codes. -/
def standardCodes : List Nat := [1, 2, 3, 4, 5, 6, 8, 9]

/-- The admission filter of the experimental builder as the specification
words it: only `Unknown` identifiers whose code is not a standard code and
lies in the representable range `1..15`. -/
def expValid (st : Setting) : Bool :=
  match st.id with
  | .Unknown c => decide (c ∉ standardCodes) && decide (1 ≤ c) && decide (c ≤ 15)
  | _ => false

/-- The experimental settings attached to a `Settings`, as a list. -/
def expListOf (s : Settings) : List Setting :=
  match s.experimental_settings with
  | some es => es.settings
  | none => []

/-- The record list of a single standard slot: one record when the field is
present, nothing when absent. -/
def optRecord (k : SettingId) (o : Option Nat) : List Setting :=
  match o with
  | some v => [⟨k, v⟩]
  | none => []

/-- The per-slot emission of encode as the specification words it: a standard
identifier emits its present field value; an unknown identifier emits the
first attached experimental setting carrying that identifier, if any. -/
def specEmit (s : Settings) (id : SettingId) : List Setting :=
  match id with
  | .Unknown c =>
      (((expListOf s).filter (fun st => st.id == SettingId.Unknown c)).head?).toList
  | k => optRecord k (fieldVal k s)

/-- The value of the last record in `rs` carrying identifier `k`, defaulting
to `d` when there is none: a left fold in which every later matching record
overwrites the accumulator. -/
def lastValD (rs : List Setting) (k : SettingId) (d : Option Nat) : Option Nat :=
  rs.foldl (fun acc r => if r.id = k then some r.value else acc) d

/-!
Helper lemmas.
-/

theorem and_two_pow_ne_zero_iff (m c : Nat) : m &&& 2 ^ c ≠ 0 ↔ m.testBit c = true := by
  rw [Nat.and_two_pow]
  rcases h : m.testBit c <;> simp [h, Nat.pos_iff_ne_zero.mp (Nat.two_pow_pos c)]

theorem testBit_or_two_pow (m c d : Nat) :
    (m ||| 2 ^ c).testBit d = true ↔ (m.testBit d = true ∨ c = d) := by
  rw [Nat.testBit_lor]
  by_cases h : c = d
  · subst h
    simp [Nat.testBit_two_pow_self]
  · simp [Nat.testBit_two_pow_of_ne h, h]

theorem toCode_inj_standard (a b : SettingId) (ha : a.isStandard = true)
    (hb : b.isStandard = true) (h : a.toCode = b.toCode) : a = b := by
  cases a <;> cases b <;> simp_all [SettingId.toCode, SettingId.isStandard]

theorem mask_id_standard (a : SettingId) (ha : a.isStandard = true) :
    a.mask_id = 2 ^ a.toCode := by
  cases a <;> simp_all [SettingId.mask_id, SettingId.toCode, SettingId.MAX_ID,
    SettingId.isStandard]

theorem mask_id_standard_ne_zero (a : SettingId) (ha : a.isStandard = true) :
    a.mask_id ≠ 0 := by
  rw [mask_id_standard a ha]
  exact Nat.pos_iff_ne_zero.mp (Nat.two_pow_pos a.toCode)

theorem find?_eq_filter_head? {α : Type} (p : α → Bool) (l : List α) :
    l.find? p = (l.filter p).head? := by
  induction l with
  | nil => rfl
  | cons a l ih =>
    rw [List.find?_cons, List.filter_cons]
    cases h : p a
    · simp only [if_neg (by simp [h] : ¬p a = true)]
      exact ih
    · simp [if_pos rfl]

/-- The reachability invariant of the order builder over standard pushes: the
accumulated identifiers are standard and duplicate-free, and the mask holds
exactly the bits of their codes. -/
def OrderInv (b : SettingsOrderBuilder) : Prop :=
  b.ids.Nodup ∧ (∀ id ∈ b.ids, id.isStandard = true) ∧
    ∀ k : SettingId, k.isStandard = true → (k ∈ b.ids ↔ b.mask.testBit k.toCode = true)

theorem orderInv_builder : OrderInv SettingsOrder.builder := by
  refine ⟨List.nodup_nil, ?_, ?_⟩ <;> simp [SettingsOrder.builder]

theorem push_mem (b : SettingsOrderBuilder) (id : SettingId) (hb : OrderInv b)
    (hid : id.isStandard = true) (h : id ∈ b.ids) : b.push id = b := by
  have hne : ¬b.mask &&& id.mask_id = 0 := by
    rw [mask_id_standard id hid]
    exact (and_two_pow_ne_zero_iff _ _).mpr ((hb.2.2 id hid).mp h)
  simp only [SettingsOrderBuilder.push]
  rw [if_pos (mask_id_standard_ne_zero id hid), if_neg hne]

theorem push_not_mem (b : SettingsOrderBuilder) (id : SettingId) (hb : OrderInv b)
    (hid : id.isStandard = true) (h : id ∉ b.ids) :
    b.push id = ⟨b.ids ++ [id], b.mask ||| id.mask_id⟩
      ∧ OrderInv ⟨b.ids ++ [id], b.mask ||| id.mask_id⟩ := by
  have heq : ¬b.mask &&& id.mask_id ≠ 0 := by
    rw [mask_id_standard id hid]
    intro hc
    exact h ((hb.2.2 id hid).mpr ((and_two_pow_ne_zero_iff _ _).mp hc))
  constructor
  · simp only [SettingsOrderBuilder.push]
    rw [if_pos (mask_id_standard_ne_zero id hid), if_pos (not_not.mp heq)]
  · refine ⟨?_, ?_, ?_⟩
    · simp [List.nodup_append, hb.1, h]
    · intro x hx
      rcases List.mem_append.mp hx with hx | hx
      · exact hb.2.1 x hx
      · rw [List.mem_singleton.mp hx]; exact hid
    · intro k hk
      rw [mask_id_standard id hid]
      simp only [List.mem_append, List.mem_singleton]
      constructor
      · rintro (hm | rfl)
        · exact (testBit_or_two_pow _ _ _).mpr (Or.inl ((hb.2.2 k hk).mp hm))
        · exact (testBit_or_two_pow _ _ _).mpr (Or.inr rfl)
      · intro ht
        rcases (testBit_or_two_pow _ _ _).mp ht with hm | hc
        · exact Or.inl ((hb.2.2 k hk).mpr hm)
        · exact Or.inr (toCode_inj_standard id k hid hk hc).symm

theorem orderKeep_congr (s1 s2 l : List SettingId) (h : ∀ x, x ∈ s1 ↔ x ∈ s2) :
    orderKeep s1 l = orderKeep s2 l := by
  induction l generalizing s1 s2 with
  | nil => rfl
  | cons a l ih =>
    simp only [orderKeep]
    by_cases ha : a ∈ s1
    · rw [if_pos ha, if_pos ((h a).mp ha)]
      exact ih s1 s2 h
    · rw [if_neg ha, if_neg (fun hh => ha ((h a).mpr hh))]
      congr 1
      exact ih _ _ (fun x => by simp only [List.mem_cons]; rw [h x])

theorem mem_orderKeep (x : SettingId) (seen l : List SettingId) :
    x ∈ orderKeep seen l ↔ (x ∈ l ∧ x ∉ seen) := by
  induction l generalizing seen with
  | nil => simp [orderKeep]
  | cons a l ih =>
    simp only [orderKeep]
    by_cases ha : a ∈ seen
    · rw [if_pos ha, ih]
      simp only [List.mem_cons]
      constructor
      · rintro ⟨h1, h2⟩
        exact ⟨Or.inr h1, h2⟩
      · rintro ⟨h1 | h1, h2⟩
        · exact absurd (h1 ▸ ha) h2
        · exact ⟨h1, h2⟩
    · rw [if_neg ha]
      constructor
      · intro hx
        rcases List.mem_cons.mp hx with rfl | hx
        · exact ⟨List.mem_cons_self x l, ha⟩
        · obtain ⟨h1, h2⟩ := (ih (a :: seen)).mp hx
          exact ⟨List.mem_cons_of_mem a h1, fun hs => h2 (List.mem_cons_of_mem a hs)⟩
      · rintro ⟨h1, h2⟩
        rcases List.mem_cons.mp h1 with rfl | h1
        · exact List.mem_cons_self x _
        · by_cases hxa : x = a
          · subst hxa
            exact List.mem_cons_self x _
          · refine List.mem_cons_of_mem a ((ih (a :: seen)).mpr ⟨h1, fun hs => ?_⟩)
            rcases List.mem_cons.mp hs with hh | hh
            · exact hxa hh
            · exact h2 hh

theorem orderKeep_eq_filter (seen d : List SettingId) (hd : d.Nodup) :
    orderKeep seen d = d.filter (fun k => decide (k ∉ seen)) := by
  induction d generalizing seen with
  | nil => rfl
  | cons a d ih =>
    have hd1 : d.Nodup := (List.nodup_cons.mp hd).2
    have had : a ∉ d := (List.nodup_cons.mp hd).1
    simp only [orderKeep, List.filter_cons]
    by_cases ha : a ∈ seen
    · rw [if_pos ha]
      simp [ha, ih seen hd1]
    · rw [if_neg ha]
      simp only [ha, not_false_iff, decide_eq_true_eq, if_true, decide_not,
        Bool.not_eq_true, decide_eq_false_iff_not, if_pos]
      rw [ih (a :: seen) hd1]
      congr 1
      apply List.filter_congr
      intro x hx
      have hxa : x ≠ a := fun h => had (h ▸ hx)
      simp [List.mem_cons, hxa]

theorem extend_char (l : List SettingId) : ∀ b : SettingsOrderBuilder,
    (∀ id ∈ l, id.isStandard = true) → OrderInv b →
    (b.extend l).ids = b.ids ++ orderKeep b.ids l ∧ OrderInv (b.extend l) ∧
      ∀ k, k ∈ (b.extend l).ids ↔ (k ∈ b.ids ∨ k ∈ l) := by
  induction l with
  | nil =>
    intro b _ hb
    refine ⟨by simp [SettingsOrderBuilder.extend, orderKeep], hb, by simp [SettingsOrderBuilder.extend]⟩
  | cons a l ih =>
    intro b hl hb
    have ha : a.isStandard = true := hl a (List.mem_cons_self a l)
    have hl1 : ∀ id ∈ l, id.isStandard = true := fun id h => hl id (List.mem_cons_of_mem a h)
    by_cases hmem : a ∈ b.ids
    · have hstep : b.extend (a :: l) = b.extend l := by
        simp [SettingsOrderBuilder.extend, List.foldl_cons, push_mem b a hb ha hmem]
      rw [hstep]
      obtain ⟨h1, h2, h3⟩ := ih b hl1 hb
      refine ⟨?_, h2, ?_⟩
      · rw [h1]
        congr 1
        simp [orderKeep, hmem]
      · intro k
        rw [h3]
        simp only [List.mem_cons]
        constructor
        · rintro (h | h)
          · exact Or.inl h
          · exact Or.inr (Or.inr h)
        · rintro (h | rfl | h)
          · exact Or.inl h
          · exact Or.inl hmem
          · exact Or.inr h
    · obtain ⟨hpeq, hinv⟩ := push_not_mem b a hb ha hmem
      have hstep : b.extend (a :: l)
          = (SettingsOrderBuilder.mk (b.ids ++ [a]) (b.mask ||| a.mask_id)).extend l := by
        simp [SettingsOrderBuilder.extend, List.foldl_cons, hpeq]
      rw [hstep]
      obtain ⟨h1, h2, h3⟩ := ih _ hl1 hinv
      refine ⟨?_, h2, ?_⟩
      · rw [h1]
        simp only
        rw [orderKeep_congr (b.ids ++ [a]) (a :: b.ids) l
          (fun x => by simp [List.mem_append, List.mem_cons, or_comm])]
        have : orderKeep b.ids (a :: l) = a :: orderKeep (a :: b.ids) l := by
          simp [orderKeep, hmem]
        rw [this, List.append_assoc]
        rfl
      · intro k
        rw [h3]
        simp only [List.mem_append, List.mem_cons, List.not_mem_nil, or_false]
        constructor
        · rintro ((h | rfl) | h)
          · exact Or.inl h
          · exact Or.inr (Or.inl rfl)
          · exact Or.inr (Or.inr h)
        · rintro (h | rfl | h)
          · exact Or.inl (Or.inl h)
          · exact Or.inl (Or.inr rfl)
          · exact Or.inr h

theorem mask_id_unknown_eq_zero_iff (c : Nat) :
    (SettingId.Unknown c).mask_id = 0 ↔ (c = 0 ∨ 15 < c) := by
  simp only [SettingId.mask_id, SettingId.toCode, SettingId.MAX_ID]
  by_cases h : c = 0 ∨ 15 < c
  · simp [h]
  · simp [h, Nat.pos_iff_ne_zero.mp (Nat.two_pow_pos c)]

theorem mask_id_unknown_in_range (c : Nat) (h1 : 1 ≤ c) (h2 : c ≤ 15) :
    (SettingId.Unknown c).mask_id = 2 ^ c := by
  simp only [SettingId.mask_id, SettingId.toCode, SettingId.MAX_ID]
  rw [if_neg (by omega)]

theorem fromCode_of_not_standard (c : Nat) (h : c ∉ standardCodes) :
    SettingId.fromCode c = .Unknown c := by
  simp only [standardCodes, List.mem_cons, List.not_mem_nil, or_false, not_or] at h
  obtain ⟨h1, h2, h3, h4, h5, h6, h8, h9⟩ := h
  simp [SettingId.fromCode, h1, h2, h3, h4, h5, h6, h8, h9]

theorem mem_standardCodes_of_fromCode (c : Nat)
    (h : (SettingId.fromCode c).isStandard = true) : c ∈ standardCodes := by
  by_contra hc
  rw [fromCode_of_not_standard c hc] at h
  simp [SettingId.isStandard] at h

theorem expValid_mask (st : Setting) (h : expValid st = true) :
    st.id.mask_id = 2 ^ st.id.toCode := by
  obtain ⟨id, value⟩ := st
  cases id
  case Unknown c =>
    simp only [expValid, Bool.and_eq_true, decide_eq_true_eq] at h
    exact mask_id_unknown_in_range c h.1.2 h.2
  all_goals simp [expValid] at h

theorem expPush_some_eq (b : ExperimentalSettingsBuilder) (st : Setting) :
    b.push (some st)
      = if expValid st = true then
          (if b.mask &&& st.id.mask_id = 0 then
            ⟨b.settings ++ [st], b.mask ||| st.id.mask_id⟩
          else b)
        else b := by
  obtain ⟨id, value⟩ := st
  cases id
  case Unknown c =>
    by_cases hcs : c ∈ standardCodes
    · have hval : expValid ⟨.Unknown c, value⟩ = false := by
        simp [expValid, hcs]
      rw [hval]
      simp only [Bool.false_eq_true, if_false]
      simp only [standardCodes, List.mem_cons, List.not_mem_nil, or_false] at hcs
      rcases hcs with rfl | rfl | rfl | rfl | rfl | rfl | rfl | rfl <;> rfl
    · have hfc := fromCode_of_not_standard c hcs
      by_cases hrange : 1 ≤ c ∧ c ≤ 15
      · have hval : expValid ⟨.Unknown c, value⟩ = true := by
          simp [expValid, hcs, hrange.1, hrange.2]
        have hm := mask_id_unknown_in_range c hrange.1 hrange.2
        simp only [ExperimentalSettingsBuilder.push]
        rw [hfc]
        simp [hval, hm, Nat.pos_iff_ne_zero.mp (Nat.two_pow_pos c)]
      · have hval : expValid ⟨.Unknown c, value⟩ = false := by
          simp only [expValid]
          by_cases h1 : 1 ≤ c
          · have h2 : ¬c ≤ 15 := fun h => hrange ⟨h1, h⟩
            simp [h2]
          · simp [h1]
        have hm : (SettingId.Unknown c).mask_id = 0 :=
          (mask_id_unknown_eq_zero_iff c).mpr (by omega)
        simp only [ExperimentalSettingsBuilder.push]
        rw [hfc]
        simp [hval, hm]
  all_goals simp [ExperimentalSettingsBuilder.push, expValid]

theorem mem_keepFirstAux (st : Setting) (l : List Setting) :
    ∀ seen : List Nat, st ∈ keepFirstAux seen l → st ∈ l := by
  induction l with
  | nil => intro seen h; simp [keepFirstAux] at h
  | cons a l ih =>
    intro seen h
    simp only [keepFirstAux] at h
    by_cases ha : a.id.toCode ∈ seen
    · rw [if_pos ha] at h
      exact List.mem_cons_of_mem a (ih seen h)
    · rw [if_neg ha] at h
      rcases List.mem_cons.mp h with rfl | h
      · exact List.mem_cons_self st l
      · exact List.mem_cons_of_mem a (ih _ h)

theorem keepFirstAux_codes (l : List Setting) :
    ∀ seen : List Nat,
      ((keepFirstAux seen l).map (fun st => st.id.toCode)).Nodup
        ∧ ∀ st ∈ keepFirstAux seen l, st.id.toCode ∉ seen := by
  induction l with
  | nil => intro seen; simp [keepFirstAux]
  | cons a l ih =>
    intro seen
    simp only [keepFirstAux]
    by_cases ha : a.id.toCode ∈ seen
    · rw [if_pos ha]
      exact ih seen
    · rw [if_neg ha]
      obtain ⟨ih1, ih2⟩ := ih (a.id.toCode :: seen)
      refine ⟨?_, ?_⟩
      · rw [List.map_cons, List.nodup_cons]
        refine ⟨?_, ih1⟩
        intro hmem
        obtain ⟨st, hst, hcode⟩ := List.mem_map.mp hmem
        exact ih2 st hst (hcode ▸ List.mem_cons_self _ _)
      · intro st hst
        rcases List.mem_cons.mp hst with rfl | hst
        · exact ha
        · exact fun hs => ih2 st hst (List.mem_cons_of_mem _ hs)

theorem expExtend_char (items : List (Option Setting)) :
    ∀ (b : ExperimentalSettingsBuilder) (seen : List Nat),
      (∀ d, b.mask.testBit d = true ↔ d ∈ seen) →
      (b.extend items).settings
        = b.settings ++ keepFirstAux seen ((items.filterMap (fun x => x)).filter expValid) := by
  induction items with
  | nil =>
    intro b seen hb
    simp [ExperimentalSettingsBuilder.extend, keepFirstAux]
  | cons item items ih =>
    intro b seen hb
    have hstep : b.extend (item :: items) = (b.push item).extend items := by
      simp [ExperimentalSettingsBuilder.extend, List.foldl_cons]
    rw [hstep]
    cases item with
    | none =>
      have : b.push none = b := rfl
      rw [this]
      simpa using ih b seen hb
    | some st =>
      rw [expPush_some_eq]
      by_cases hv : expValid st = true
      · rw [if_pos hv]
        have hmask := expValid_mask st hv
        by_cases hseen : st.id.toCode ∈ seen
        · have hbit : b.mask &&& st.id.mask_id ≠ 0 := by
            rw [hmask]
            exact (and_two_pow_ne_zero_iff _ _).mpr ((hb _).mpr hseen)
          rw [if_neg hbit]
          have hfil : (List.filterMap (fun x => x) (some st :: items)).filter expValid
              = st :: (items.filterMap (fun x => x)).filter expValid := by
            simp [List.filterMap_cons, List.filter_cons, hv]
          rw [hfil]
          simp only [keepFirstAux, if_pos hseen]
          exact ih b seen hb
        · have hbit : b.mask &&& st.id.mask_id = 0 := by
            rw [hmask, Nat.and_two_pow]
            rcases h : b.mask.testBit st.id.toCode
            · simp
            · exact absurd ((hb _).mp h) hseen
          rw [if_pos hbit]
          have hinv : ∀ d, (b.mask ||| st.id.mask_id).testBit d = true
              ↔ d ∈ st.id.toCode :: seen := by
            intro d
            rw [hmask, testBit_or_two_pow]
            simp only [List.mem_cons]
            constructor
            · rintro (h | rfl)
              · exact Or.inr ((hb d).mp h)
              · exact Or.inl rfl
            · rintro (rfl | h)
              · exact Or.inr rfl
              · exact Or.inl ((hb d).mpr h)
          have hrec := ih ⟨b.settings ++ [st], b.mask ||| st.id.mask_id⟩
            (st.id.toCode :: seen) hinv
          rw [hrec]
          have hfil : (List.filterMap (fun x => x) (some st :: items)).filter expValid
              = st :: (items.filterMap (fun x => x)).filter expValid := by
            simp [List.filterMap_cons, List.filter_cons, hv]
          rw [hfil]
          simp only [keepFirstAux, if_neg hseen]
          simp [List.append_assoc]
      · rw [if_neg hv]
        have hfil : (List.filterMap (fun x => x) (some st :: items)).filter expValid
            = (items.filterMap (fun x => x)).filter expValid := by
          simp only [List.filterMap_cons, List.filter_cons]
          rw [if_neg (by simp [hv])]
        rw [hfil]
        exact ih b seen hb

theorem default_ids_standard : ∀ id ∈ SettingId.DEFAULT_IDS, id.isStandard = true := by
  decide

theorem default_ids_nodup : SettingId.DEFAULT_IDS.Nodup := by decide

theorem standard_mem_default_ids (k : SettingId) (hk : k.isStandard = true) :
    k ∈ SettingId.DEFAULT_IDS := by
  cases k <;> try decide
  simp [SettingId.isStandard] at hk

/-!
Claim theorems.
-/

/-- Claim C3 counterexample: the claim quantifies over every sequence of
pushes, but pushing the unknown identifier with code 3 takes the mask bit
`2 ^ 3` of MaxConcurrentStreams (wire code 3), so the completion step cannot
add MaxConcurrentStreams and the built sequence does not contain every one of
the eight standard identifiers. -/
theorem claim_C3_counterexample :
    SettingId.MaxConcurrentStreams
        ∉ (SettingsOrder.builder.push (.Unknown 3)).build.ids
      ∧ (SettingsOrder.builder.push (.Unknown 3)).build.ids.count
          SettingId.MaxConcurrentStreams = 0
      ∧ SettingId.Unknown 3 ∈ (SettingsOrder.builder.push (.Unknown 3)).build.ids := by
  refine ⟨by decide, by decide, by decide⟩

/-- Claim C3 as amended: for every sequence of standard identifiers pushed
(or extended) into `SettingsOrder::builder`, `build()` yields the explicitly
pushed identifiers first, deduplicated in first-push order, followed by the
remaining standard identifiers in canonical default order; every one of the
eight standard identifiers occurs exactly once. The restriction to standard
identifiers is necessary: an unknown identifier with a representable code
takes the mask bit of the standard identifier sharing that code and blocks it
from the sequence. -/
theorem claim_C3_order_builder (l : List SettingId)
    (hstd : ∀ id ∈ l, id.isStandard = true) :
    (SettingsOrder.builder.extend l).build.ids
        = orderKeep [] l ++ SettingId.DEFAULT_IDS.filter (fun k => decide (k ∉ l))
      ∧ ∀ k : SettingId, k.isStandard = true →
          (SettingsOrder.builder.extend l).build.ids.count k = 1 := by
  obtain ⟨h1, h2, h3⟩ := extend_char l SettingsOrder.builder hstd orderInv_builder
  have hids1 : (SettingsOrder.builder.extend l).ids = orderKeep [] l := by
    rw [h1]
    rfl
  obtain ⟨g1, g2, g3⟩ := extend_char SettingId.DEFAULT_IDS _ default_ids_standard h2
  constructor
  · show ((SettingsOrder.builder.extend l).extend SettingId.DEFAULT_IDS).ids = _
    rw [g1, hids1]
    congr 1
    rw [orderKeep_eq_filter _ _ default_ids_nodup]
    apply List.filter_congr
    intro x hx
    have hmx : x ∈ orderKeep [] l ↔ x ∈ l := by
      rw [mem_orderKeep]
      simp
    simp [hmx]
  · intro k hk
    have hkmem : k ∈ ((SettingsOrder.builder.extend l).extend SettingId.DEFAULT_IDS).ids :=
      (g3 k).mpr (Or.inr (standard_mem_default_ids k hk))
    exact List.count_eq_one_of_mem g2.1 hkmem

/-- Claim C3 witness at the concrete push sequence `[MaxFrameSize]`. -/
theorem claim_C3_order_builder_witness :
    (SettingsOrder.builder.extend [SettingId.MaxFrameSize]).build.ids
        = orderKeep [] [SettingId.MaxFrameSize]
          ++ SettingId.DEFAULT_IDS.filter (fun k => decide (k ∉ [SettingId.MaxFrameSize]))
      ∧ (SettingsOrder.builder.extend [SettingId.MaxFrameSize]).build.ids.count
          SettingId.EnablePush = 1 :=
  ⟨(claim_C3_order_builder [SettingId.MaxFrameSize] (by decide)).1,
   (claim_C3_order_builder [SettingId.MaxFrameSize] (by decide)).2
     SettingId.EnablePush (by decide)⟩

/-- Claim C6 counterexample: pushing the unknown identifier with code 7 into
the order builder is not a no-op; the built sequence contains it (its mask
bit `2 ^ 7` is nonzero, refuting the claim that unknown identifiers have mask
bit 0 and never enter the sequence). -/
theorem claim_C6_counterexample :
    SettingId.Unknown 7 ∈ (SettingsOrder.builder.push (SettingId.Unknown 7)).build.ids := by
  decide

/-- Claim C6 as amended: an unknown identifier has mask bit 0 exactly when
its code is 0 or exceeds `MAX_ID` (15), and pushing such an identifier is a
silent no-op; an unknown identifier with a representable code and an unseen
mask bit is appended to the sequence. -/
theorem claim_C6_unknown_push (b : SettingsOrderBuilder) (c : Nat) :
    ((SettingId.Unknown c).mask_id = 0 ↔ (c = 0 ∨ 15 < c))
      ∧ ((c = 0 ∨ 15 < c) → b.push (.Unknown c) = b)
      ∧ (1 ≤ c → c ≤ 15 → b.mask &&& 2 ^ c = 0 →
          b.push (.Unknown c) = ⟨b.ids ++ [.Unknown c], b.mask ||| 2 ^ c⟩) := by
  have hzero : (SettingId.Unknown c).mask_id = 0 ↔ (c = 0 ∨ 15 < c) := by
    simp only [SettingId.mask_id, SettingId.toCode, SettingId.MAX_ID]
    by_cases h : c = 0 ∨ 15 < c
    · simp [h]
    · simp [h, Nat.pos_iff_ne_zero.mp (Nat.two_pow_pos c)]
  refine ⟨hzero, ?_, ?_⟩
  · intro h
    simp [SettingsOrderBuilder.push, hzero.mpr h]
  · intro h1 h2 h3
    have hmask : (SettingId.Unknown c).mask_id = 2 ^ c := by
      simp only [SettingId.mask_id, SettingId.toCode, SettingId.MAX_ID]
      rw [if_neg (by omega)]
    simp [SettingsOrderBuilder.push, hmask, h3, Nat.pos_iff_ne_zero.mp (Nat.two_pow_pos c)]

/-- Claim C6 amended witness at codes 16 (no-op) and 7 (accepted). -/
theorem claim_C6_unknown_push_witness :
    SettingsOrder.builder.push (.Unknown 16) = SettingsOrder.builder
      ∧ SettingsOrder.builder.push (.Unknown 7)
        = ⟨SettingsOrder.builder.ids ++ [.Unknown 7], SettingsOrder.builder.mask ||| 2 ^ 7⟩ :=
  ⟨(claim_C6_unknown_push SettingsOrder.builder 16).2.1 (by decide),
   (claim_C6_unknown_push SettingsOrder.builder 7).2.2 (by decide) (by decide) (by decide)⟩

/-- Claim C7: `Setting::from_id` on an unknown identifier fails exactly when
the code is 0 or above `MAX_ID` (15); `Unknown 16` fails, `Unknown 15`
succeeds, and every standard identifier always succeeds. -/
theorem claim_C7_from_id_guard (c v : Nat) :
    (Setting.from_id (.Unknown c) v = none ↔ (c = 0 ∨ 15 < c))
      ∧ Setting.from_id (.Unknown 16) 42 = none
      ∧ (Setting.from_id (.Unknown 15) 42).isSome = true
      ∧ ∀ id : SettingId, id.isStandard = true → (Setting.from_id id v).isSome = true := by
  refine ⟨?_, by decide, by decide, ?_⟩
  · simp only [Setting.from_id, SettingId.MAX_ID]
    by_cases h : c = 0 ∨ 15 < c <;> simp [h]
  · intro id hid
    cases id <;> simp_all [Setting.from_id, SettingId.isStandard]

/-- Claim C7 witness at code 16, value 42 and the HeaderTableSize
identifier. -/
theorem claim_C7_from_id_guard_witness :
    (Setting.from_id (.Unknown 16) 42 = none ↔ ((16 : Nat) = 0 ∨ 15 < 16))
      ∧ (Setting.from_id .HeaderTableSize 42).isSome = true :=
  ⟨(claim_C7_from_id_guard 16 42).1,
   (claim_C7_from_id_guard 16 42).2.2.2 .HeaderTableSize (by decide)⟩

theorem applySetting_ok_of (s : Settings) (st : Setting) (h : settingOk st = true) :
    ∃ t, Settings.applySetting s st = .ok t := by
  obtain ⟨id, value⟩ := st
  cases id
  case HeaderTableSize => exact ⟨{ s with header_table_size := some value }, rfl⟩
  case MaxConcurrentStreams => exact ⟨{ s with max_concurrent_streams := some value }, rfl⟩
  case MaxHeaderListSize => exact ⟨{ s with max_header_list_size := some value }, rfl⟩
  case Unknown c => exact ⟨s, rfl⟩
  case EnablePush =>
    have hv : value = 0 ∨ value = 1 := by simpa [settingOk] using h
    exact ⟨{ s with enable_push := some value },
      by simp only [Settings.applySetting]; rw [if_pos hv]⟩
  case EnableConnectProtocol =>
    have hv : value = 0 ∨ value = 1 := by simpa [settingOk] using h
    exact ⟨{ s with enable_connect_protocol := some value },
      by simp only [Settings.applySetting]; rw [if_pos hv]⟩
  case NoRfc7540Priorities =>
    have hv : value = 0 ∨ value = 1 := by simpa [settingOk] using h
    exact ⟨{ s with no_rfc7540_priorities := some value },
      by simp only [Settings.applySetting]; rw [if_pos hv]⟩
  case InitialWindowSize =>
    have hv : value ≤ 2 ^ 31 - 1 := by simpa [settingOk] using h
    exact ⟨{ s with initial_window_size := some value },
      by simp only [Settings.applySetting, MAX_INITIAL_WINDOW_SIZE]
         rw [if_neg (Nat.not_lt.mpr hv)]⟩
  case MaxFrameSize =>
    have hv : 16384 ≤ value ∧ value ≤ 2 ^ 24 - 1 := by simpa [settingOk] using h
    exact ⟨{ s with max_frame_size := some value },
      by simp only [Settings.applySetting, DEFAULT_MAX_FRAME_SIZE, MAX_MAX_FRAME_SIZE]
         rw [if_pos hv]⟩

theorem applySetting_err (s : Settings) (st : Setting) (h : settingOk st = false) :
    Settings.applySetting s st = .error .InvalidSettingValue := by
  obtain ⟨id, value⟩ := st
  cases id
  case HeaderTableSize => simp [settingOk] at h
  case MaxConcurrentStreams => simp [settingOk] at h
  case MaxHeaderListSize => simp [settingOk] at h
  case Unknown c => simp [settingOk] at h
  case EnablePush =>
    have hv : ¬(value = 0 ∨ value = 1) := by simpa [settingOk] using h
    simp only [Settings.applySetting]
    rw [if_neg hv]
  case EnableConnectProtocol =>
    have hv : ¬(value = 0 ∨ value = 1) := by simpa [settingOk] using h
    simp only [Settings.applySetting]
    rw [if_neg hv]
  case NoRfc7540Priorities =>
    have hv : ¬(value = 0 ∨ value = 1) := by simpa [settingOk] using h
    simp only [Settings.applySetting]
    rw [if_neg hv]
  case InitialWindowSize =>
    have hv : ¬value ≤ 2 ^ 31 - 1 := by simpa [settingOk] using h
    simp only [Settings.applySetting, MAX_INITIAL_WINDOW_SIZE]
    rw [if_pos (Nat.not_le.mp hv)]
  case MaxFrameSize =>
    have hv : ¬(16384 ≤ value ∧ value ≤ 2 ^ 24 - 1) := by simpa [settingOk] using h
    simp only [Settings.applySetting, DEFAULT_MAX_FRAME_SIZE, MAX_MAX_FRAME_SIZE]
    rw [if_neg hv]

theorem applySetting_field_set (s : Settings) (st : Setting) (t : Settings)
    (h : Settings.applySetting s st = .ok t) (hstd : st.id.isStandard = true) :
    fieldVal st.id t = some st.value := by
  obtain ⟨id, value⟩ := st
  cases id
  case Unknown c => simp [SettingId.isStandard] at hstd
  all_goals simp only [Settings.applySetting] at h
  all_goals try split at h
  all_goals cases h
  all_goals simp [fieldVal]

theorem applySetting_field_frozen (s : Settings) (st : Setting) (t : Settings)
    (k : SettingId) (h : Settings.applySetting s st = .ok t) (hne : st.id ≠ k) :
    fieldVal k t = fieldVal k s := by
  obtain ⟨id, value⟩ := st
  cases id <;> simp only [Settings.applySetting] at h <;> try split at h
  all_goals cases h
  all_goals cases k <;> simp_all [fieldVal]

theorem loadSettingsList_ok_iff (rs : List Setting) :
    ∀ s : Settings,
      ((∃ t, loadSettingsList rs s = .ok t) ↔ ∀ st ∈ rs, settingOk st = true) := by
  induction rs with
  | nil => intro s; simp [loadSettingsList]
  | cons st rs ih =>
    intro s
    constructor
    · rintro ⟨t, ht⟩
      simp only [loadSettingsList] at ht
      rcases ha : Settings.applySetting s st with e | s1
      · rw [ha] at ht
        cases ht
      · rw [ha] at ht
        intro x hx
        rcases List.mem_cons.mp hx with rfl | hx
        · rcases hok : settingOk x
          · rw [applySetting_err s x hok] at ha
            cases ha
          · rfl
        · exact ((ih s1).mp ⟨t, ht⟩) x hx
    · intro hall
      have h1 : settingOk st = true := hall st (List.mem_cons_self st rs)
      obtain ⟨s1, hs1⟩ := applySetting_ok_of s st h1
      obtain ⟨t, ht⟩ := (ih s1).mpr fun x hx => hall x (List.mem_cons_of_mem st hx)
      refine ⟨t, ?_⟩
      simp only [loadSettingsList, hs1]
      exact ht

theorem loadSettingsList_err (rs : List Setting) :
    ∀ s : Settings, (¬∀ st ∈ rs, settingOk st = true) →
      loadSettingsList rs s = .error .InvalidSettingValue := by
  induction rs with
  | nil => intro s h; simp at h
  | cons st rs ih =>
    intro s h
    rcases hok : settingOk st
    · simp only [loadSettingsList, applySetting_err s st hok]
    · obtain ⟨s1, hs1⟩ := applySetting_ok_of s st hok
      simp only [loadSettingsList, hs1]
      refine ih s1 fun hall => h ?_
      intro x hx
      rcases List.mem_cons.mp hx with rfl | hx
      · exact hok
      · exact hall x hx

theorem loadSettingsList_last (rs : List Setting) :
    ∀ (s t : Settings), loadSettingsList rs s = .ok t →
      ∀ k : SettingId, k.isStandard = true →
        fieldVal k t = lastValD rs k (fieldVal k s) := by
  induction rs with
  | nil =>
    intro s t h k _
    simp only [loadSettingsList] at h
    injection h with h
    subst h
    rfl
  | cons st rs ih =>
    intro s t h k hk
    simp only [loadSettingsList] at h
    rcases ha : Settings.applySetting s st with e | s1
    · rw [ha] at h
      cases h
    · rw [ha] at h
      have hrec := ih s1 t h k hk
      by_cases hid : st.id = k
      · subst hid
        rw [hrec, applySetting_field_set s st s1 ha hk]
        simp only [lastValD, List.foldl_cons]
        simp
      · rw [hrec, applySetting_field_frozen s st s1 k ha hid]
        simp only [lastValD, List.foldl_cons, if_neg hid]

theorem loadSettingsList_ignore_unknown (rs : List Setting) :
    ∀ s : Settings,
      loadSettingsList rs s
        = loadSettingsList (rs.filter (fun st => st.id.isStandard)) s := by
  induction rs with
  | nil => intro s; rfl
  | cons st rs ih =>
    intro s
    rcases hstd : st.id.isStandard
    · have hsk : settingOk st = true := by
        obtain ⟨id, value⟩ := st
        cases id <;> simp_all [SettingId.isStandard, settingOk]
      have happ : Settings.applySetting s st = .ok s := by
        obtain ⟨id, value⟩ := st
        cases id <;> simp_all [SettingId.isStandard, Settings.applySetting]
      simp only [loadSettingsList, happ, List.filter_cons, hstd]
      simp only [Bool.false_eq_true, if_false]
      exact ih s
    · simp only [loadSettingsList, List.filter_cons, hstd, eq_self_iff_true, if_true]
      rcases ha : Settings.applySetting s st with e | s1
      · rfl
      · exact ih s1

theorem loadChunks_eq_loadSettingsList (cs : List (List Nat)) :
    ∀ s : Settings,
      Settings.loadChunks cs s = loadSettingsList (cs.filterMap Setting.load) s := by
  induction cs with
  | nil => intro s; rfl
  | cons c cs ih =>
    intro s
    rcases hc : Setting.load c with _ | st
    · simp only [Settings.loadChunks, List.filterMap_cons, hc]
      exact ih s
    · simp only [Settings.loadChunks, List.filterMap_cons, hc]
      rcases ha : Settings.applySetting s st with e | s1
      · simp only [loadSettingsList, ha]
      · simp only [loadSettingsList, ha]
        exact ih s1

theorem chunks6_append6 (l r : List Nat) (h : l.length = 6) :
    chunks6 (l ++ r) = l :: chunks6 r := by
  rcases l with _ | ⟨a, _ | ⟨b, _ | ⟨c, _ | ⟨d, _ | ⟨e, _ | ⟨f, tl⟩⟩⟩⟩⟩⟩ <;>
    simp only [List.length_cons, List.length_nil] at h <;> try omega
  have htl : tl = [] := List.eq_nil_of_length_eq_zero (by omega)
  subst htl
  rfl

theorem chunks6_flatMap (rs : List Setting) :
    chunks6 (rs.flatMap Setting.encodeBytes) = rs.map Setting.encodeBytes := by
  induction rs with
  | nil => rfl
  | cons st rs ih =>
    rw [List.flatMap_cons, List.map_cons,
      chunks6_append6 st.encodeBytes (rs.flatMap Setting.encodeBytes) rfl, ih]

theorem flatMap_encode_length (rs : List Setting) :
    (rs.flatMap Setting.encodeBytes).length = 6 * rs.length := by
  induction rs with
  | nil => rfl
  | cons st rs ih =>
    rw [List.flatMap_cons, List.length_append, ih, List.length_cons]
    show 6 + 6 * rs.length = 6 * (rs.length + 1)
    omega

theorem load_encodeBytes (st : Setting) (hstd : st.id.isStandard = true)
    (hv : st.value < 2 ^ 32) : Setting.load st.encodeBytes = some st := by
  obtain ⟨id, value⟩ := st
  simp only at hv
  cases id
  case Unknown c => simp [SettingId.isStandard] at hstd
  all_goals
    simp only [Setting.encodeBytes, Setting.load, SettingId.toCode, SettingId.fromCode,
      Setting.from_id]
    norm_num
    omega

theorem filterMap_load_encode (rs : List Setting)
    (h : ∀ st ∈ rs, st.id.isStandard = true ∧ st.value < 2 ^ 32) :
    (rs.map Setting.encodeBytes).filterMap Setting.load = rs := by
  induction rs with
  | nil => rfl
  | cons st rs ih =>
    have hst := h st (List.mem_cons_self st rs)
    simp only [List.map_cons, List.filterMap_cons, load_encodeBytes st hst.1 hst.2]
    rw [ih fun x hx => h x (List.mem_cons_of_mem st hx)]

theorem load_nonack (head : Head) (payload : List Nat) (h0 : head.streamId = 0)
    (hack : (SettingsFlags.load head.flag).is_ack = false)
    (hlen : payload.length % 6 = 0) :
    Settings.load head payload = Settings.loadChunks (chunks6 payload) Settings.default := by
  simp only [Settings.load, h0]
  rw [if_neg (by simp)]
  simp [hack, hlen]

theorem forEach_eq_specEmit (s : Settings) :
    s.forEachList = s.settings_order.ids.flatMap (specEmit s) := by
  unfold Settings.forEachList
  congr 1
  funext id
  cases id
  case HeaderTableSize =>
    simp only [specEmit, optRecord, fieldVal]
    cases s.header_table_size <;> simp [Setting.from_id]
  case EnablePush =>
    simp only [specEmit, optRecord, fieldVal]
    cases s.enable_push <;> simp [Setting.from_id]
  case MaxConcurrentStreams =>
    simp only [specEmit, optRecord, fieldVal]
    cases s.max_concurrent_streams <;> simp [Setting.from_id]
  case InitialWindowSize =>
    simp only [specEmit, optRecord, fieldVal]
    cases s.initial_window_size <;> simp [Setting.from_id]
  case MaxFrameSize =>
    simp only [specEmit, optRecord, fieldVal]
    cases s.max_frame_size <;> simp [Setting.from_id]
  case MaxHeaderListSize =>
    simp only [specEmit, optRecord, fieldVal]
    cases s.max_header_list_size <;> simp [Setting.from_id]
  case EnableConnectProtocol =>
    simp only [specEmit, optRecord, fieldVal]
    cases s.enable_connect_protocol <;> simp [Setting.from_id]
  case NoRfc7540Priorities =>
    simp only [specEmit, optRecord, fieldVal]
    cases s.no_rfc7540_priorities <;> simp [Setting.from_id]
  case Unknown c =>
    simp only [specEmit, expListOf]
    cases hx : s.experimental_settings with
    | none => rfl
    | some es =>
      simp only [find?_eq_filter_head?]
      cases (es.settings.filter fun st => st.id == SettingId.Unknown c).head? <;> rfl

/-- Claim C1: on the non-ACK decode path, each parsed record is validated per
its identifier as `settingOk` words the domains; the decode succeeds exactly
when every parsed record is valid, any violation aborts the whole decode with
`InvalidSettingValue`, and records with `Unknown` identifiers are discarded
(the result equals the fold over the standard records alone). -/
theorem claim_C1_record_validation (head : Head) (payload : List Nat)
    (h0 : head.streamId = 0)
    (hack : (SettingsFlags.load head.flag).is_ack = false)
    (hlen : payload.length % 6 = 0) :
    ((∃ t, Settings.load head payload = .ok t)
        ↔ ∀ st ∈ (chunks6 payload).filterMap Setting.load, settingOk st = true)
      ∧ ((¬∀ st ∈ (chunks6 payload).filterMap Setting.load, settingOk st = true)
          → Settings.load head payload = .error .InvalidSettingValue)
      ∧ Settings.load head payload
          = loadSettingsList
              (((chunks6 payload).filterMap Setting.load).filter
                (fun st => st.id.isStandard)) Settings.default := by
  have hload := load_nonack head payload h0 hack hlen
  have hchunks := loadChunks_eq_loadSettingsList (chunks6 payload) Settings.default
  refine ⟨?_, ?_, ?_⟩
  · rw [hload, hchunks]
    exact loadSettingsList_ok_iff _ Settings.default
  · intro hbad
    rw [hload, hchunks]
    exact loadSettingsList_err _ Settings.default hbad
  · rw [hload, hchunks]
    exact loadSettingsList_ignore_unknown _ Settings.default

/-- Claim C1 witness: a valid boundary payload (InitialWindowSize at
`2 ^ 31 - 1`) and an invalid one (`2 ^ 31`). -/
theorem claim_C1_record_validation_witness :
    Settings.load ⟨.Settings, 0, 0⟩ [0, 4, 127, 255, 255, 255]
        = loadSettingsList
            (((chunks6 [0, 4, 127, 255, 255, 255]).filterMap Setting.load).filter
              (fun st => st.id.isStandard)) Settings.default
      ∧ Settings.load ⟨.Settings, 0, 0⟩ [0, 4, 128, 0, 0, 0]
        = .error .InvalidSettingValue :=
  ⟨(claim_C1_record_validation ⟨.Settings, 0, 0⟩ [0, 4, 127, 255, 255, 255]
      rfl (by decide) (by decide)).2.2,
   (claim_C1_record_validation ⟨.Settings, 0, 0⟩ [0, 4, 128, 0, 0, 0]
      rfl (by decide) (by decide)).2.1 (by decide)⟩

/-- Claim C2: `Settings::load` rejects a nonzero stream identifier with
`InvalidStreamId`; with the ACK flag set it rejects a non-empty payload with
`InvalidPayloadLength` and otherwise returns the canonical ACK settings; a
non-ACK payload whose length is not a multiple of 6 is rejected with
`InvalidPayloadAckSettings`. -/
theorem claim_C2_head_dispatch (head : Head) (payload : List Nat) :
    (head.streamId ≠ 0 → Settings.load head payload = .error .InvalidStreamId)
      ∧ (head.streamId = 0 → (SettingsFlags.load head.flag).is_ack = true →
          (payload ≠ [] → Settings.load head payload = .error .InvalidPayloadLength)
          ∧ (payload = [] →
              Settings.load head payload = .ok Settings.ack
                ∧ Settings.ack.is_ack = true
                ∧ (∀ k : SettingId, fieldVal k Settings.ack = none)
                ∧ Settings.ack.settings_order = SettingsOrder.default
                ∧ Settings.ack.experimental_settings = none))
      ∧ (head.streamId = 0 → (SettingsFlags.load head.flag).is_ack = false →
          payload.length % 6 ≠ 0 →
          Settings.load head payload = .error .InvalidPayloadAckSettings) := by
  refine ⟨?_, ?_, ?_⟩
  · intro h
    simp [Settings.load, h]
  · intro h0 hak
    constructor
    · intro hne
      simp [Settings.load, h0, hak, hne]
    · intro hempty
      subst hempty
      refine ⟨by simp [Settings.load, h0, hak], by decide, ?_, by decide, by decide⟩
      intro k
      cases k <;> rfl
  · intro h0 hak hlen
    simp [Settings.load, h0, hak, hlen]

/-- Claim C2 witness: the four dispatch outcomes at concrete frames. -/
theorem claim_C2_head_dispatch_witness :
    Settings.load ⟨.Settings, 1, 0⟩ [] = .ok Settings.ack
      ∧ Settings.ack.is_ack = true
      ∧ Settings.load ⟨.Settings, 1, 0⟩ [0] = .error .InvalidPayloadLength
      ∧ Settings.load ⟨.Settings, 0, 5⟩ [] = .error .InvalidStreamId
      ∧ Settings.load ⟨.Settings, 0, 0⟩ [0] = .error .InvalidPayloadAckSettings :=
  ⟨(((claim_C2_head_dispatch ⟨.Settings, 1, 0⟩ []).2.1 rfl (by decide)).2 rfl).1,
   (((claim_C2_head_dispatch ⟨.Settings, 1, 0⟩ []).2.1 rfl (by decide)).2 rfl).2.1,
   ((claim_C2_head_dispatch ⟨.Settings, 1, 0⟩ [0]).2.1 rfl (by decide)).1 (by decide),
   (claim_C2_head_dispatch ⟨.Settings, 0, 5⟩ []).1 (by decide),
   (claim_C2_head_dispatch ⟨.Settings, 0, 0⟩ [0]).2.2 rfl (by decide) (by decide)⟩

/-- Claim C9: the `set_max_frame_size` setter fails fast (embedded as `none`)
exactly when a present value lies outside `[16384, 2 ^ 24 - 1]`, stores the
value otherwise, never fails on `None`; the same range violation on the
decode path is the recoverable `InvalidSettingValue` error. -/
theorem claim_C9_max_frame_size_setter (s : Settings) (v : Nat) :
    (Settings.set_max_frame_size s (some v) = none ↔ (v < 16384 ∨ 2 ^ 24 - 1 < v))
      ∧ (16384 ≤ v → v ≤ 2 ^ 24 - 1 →
          Settings.set_max_frame_size s (some v) = some { s with max_frame_size := some v })
      ∧ Settings.set_max_frame_size s none = some { s with max_frame_size := none }
      ∧ ((v < 16384 ∨ 2 ^ 24 - 1 < v) →
          Settings.applySetting s ⟨.MaxFrameSize, v⟩ = .error .InvalidSettingValue) := by
  refine ⟨?_, ?_, rfl, ?_⟩
  · simp only [Settings.set_max_frame_size, DEFAULT_MAX_FRAME_SIZE, MAX_MAX_FRAME_SIZE]
    by_cases h : 16384 ≤ v ∧ v ≤ 2 ^ 24 - 1
    · rw [if_pos h]
      exact iff_of_false (by simp) (by omega)
    · rw [if_neg h]
      exact iff_of_true rfl (by omega)
  · intro h1 h2
    simp only [Settings.set_max_frame_size, DEFAULT_MAX_FRAME_SIZE, MAX_MAX_FRAME_SIZE]
    rw [if_pos ⟨h1, h2⟩]
  · intro h
    apply applySetting_err
    simp only [settingOk, decide_eq_false_iff_not]
    omega

/-- Claim C9 witness at the out-of-range value 16383 and the in-range value
20000. -/
theorem claim_C9_max_frame_size_setter_witness :
    (Settings.set_max_frame_size Settings.default (some 16383) = none
        ↔ ((16383 : Nat) < 16384 ∨ 2 ^ 24 - 1 < 16383))
      ∧ Settings.set_max_frame_size Settings.default (some 20000)
          = some { Settings.default with max_frame_size := some 20000 }
      ∧ Settings.set_max_frame_size Settings.default none
          = some { Settings.default with max_frame_size := none }
      ∧ Settings.applySetting Settings.default ⟨.MaxFrameSize, 16383⟩
          = .error .InvalidSettingValue :=
  ⟨(claim_C9_max_frame_size_setter Settings.default 16383).1,
   (claim_C9_max_frame_size_setter Settings.default 20000).2.1 (by decide) (by decide),
   (claim_C9_max_frame_size_setter Settings.default 20000).2.2.1,
   (claim_C9_max_frame_size_setter Settings.default 16383).2.2.2 (by decide)⟩

/-- Claim C10: whenever a decode succeeds, every standard field of the result
holds the value of the last successfully parsed record carrying that
identifier (later records overwrite earlier ones; duplicates are not an
error), and `none` when no record carries it. -/
theorem claim_C10_last_record_wins (head : Head) (payload : List Nat) (t : Settings)
    (hok : Settings.load head payload = .ok t) :
    ∀ k : SettingId, k.isStandard = true →
      fieldVal k t = lastValD ((chunks6 payload).filterMap Setting.load) k none := by
  intro k hk
  by_cases h0 : head.streamId = 0
  · by_cases hak : (SettingsFlags.load head.flag).is_ack = true
    · by_cases hpay : payload = []
      · subst hpay
        have ht : t = Settings.ack := by
          have hload : Settings.load head [] = .ok Settings.ack := by
            simp [Settings.load, h0, hak]
          rw [hload] at hok
          injection hok with h
          exact h.symm
        subst ht
        have hcf : fieldVal k Settings.ack = none := by cases k <;> rfl
        rw [hcf]
        rfl
      · simp [Settings.load, h0, hak, hpay] at hok
    · have hackf : (SettingsFlags.load head.flag).is_ack = false :=
        Bool.not_eq_true _ ▸ eq_false_of_ne_true hak
      by_cases hlen : payload.length % 6 = 0
      · have hload := load_nonack head payload h0 hackf hlen
        rw [hload, loadChunks_eq_loadSettingsList] at hok
        have hlast := loadSettingsList_last _ Settings.default t hok k hk
        have hdef : fieldVal k Settings.default = none := by cases k <;> rfl
        rw [hlast, hdef]
      · simp [Settings.load, h0, hak, hlen] at hok
  · simp [Settings.load, h0] at hok

/-- Claim C10 witness: two HeaderTableSize records with values 1 then 2
decode to the value 2 of the last record. -/
theorem claim_C10_last_record_wins_witness :
    fieldVal .HeaderTableSize (Settings.default.set_header_table_size (some 2))
      = lastValD
          ((chunks6 [0, 1, 0, 0, 0, 1, 0, 1, 0, 0, 0, 2]).filterMap Setting.load)
          .HeaderTableSize none :=
  claim_C10_last_record_wins ⟨.Settings, 0, 0⟩ [0, 1, 0, 0, 0, 1, 0, 1, 0, 0, 0, 2]
    (Settings.default.set_header_table_size (some 2)) (by decide)
    .HeaderTableSize (by decide)

/-- Claim C8: the experimental builder keeps, of every push sequence, exactly
the valid settings (carrying an `Unknown` identifier whose code is not a
standard code and lies in the representable range), deduplicated to the first
occurrence per code and in first-push order; every retained setting is valid
and the retained codes are pairwise distinct (equivalently, the nonzero mask
bits are pairwise distinct). -/
theorem claim_C8_experimental_builder (items : List (Option Setting)) :
    (ExperimentalSettings.builder.extend items).build.settings
        = keepFirstByCode ((items.filterMap (fun x => x)).filter expValid)
      ∧ (∀ st ∈ (ExperimentalSettings.builder.extend items).build.settings,
          expValid st = true)
      ∧ ((ExperimentalSettings.builder.extend items).build.settings.map
          (fun st => st.id.toCode)).Nodup := by
  have hinv : ∀ d, (ExperimentalSettings.builder).mask.testBit d = true ↔ d ∈ ([] : List Nat) := by
    intro d
    simp [ExperimentalSettings.builder]
  have heq := expExtend_char items ExperimentalSettings.builder [] hinv
  have hbuild : (ExperimentalSettings.builder.extend items).build.settings
      = keepFirstByCode ((items.filterMap (fun x => x)).filter expValid) := by
    show (ExperimentalSettings.builder.extend items).settings = _
    rw [heq]
    rfl
  refine ⟨hbuild, ?_, ?_⟩
  · intro st hst
    rw [hbuild] at hst
    have hmem := mem_keepFirstAux st _ [] hst
    exact (List.mem_filter.mp hmem).2
  · rw [hbuild]
    exact (keepFirstAux_codes _ []).1

/-- Claim C8 witness at a concrete push sequence exercising every filter:
a spoofed unknown wrapping the standard code 3, a standard-identified
setting, a `none`, and a duplicated unknown code. -/
theorem claim_C8_experimental_builder_witness :
    (ExperimentalSettings.builder.extend
        [some ⟨.Unknown 3, 5⟩, some ⟨.HeaderTableSize, 5⟩, none,
         some ⟨.Unknown 10, 2⟩, some ⟨.Unknown 10, 9⟩]).build.settings
      = keepFirstByCode (((([some ⟨.Unknown 3, 5⟩, some ⟨.HeaderTableSize, 5⟩, none,
          some ⟨.Unknown 10, 2⟩, some ⟨.Unknown 10, 9⟩] :
            List (Option Setting)).filterMap (fun x => x))).filter expValid)
    ∧ expValid ⟨.Unknown 10, 2⟩ = true :=
  ⟨(claim_C8_experimental_builder
      [some ⟨.Unknown 3, 5⟩, some ⟨.HeaderTableSize, 5⟩, none,
       some ⟨.Unknown 10, 2⟩, some ⟨.Unknown 10, 9⟩]).1,
   (claim_C8_experimental_builder
      [some ⟨.Unknown 3, 5⟩, some ⟨.HeaderTableSize, 5⟩, none,
       some ⟨.Unknown 10, 2⟩, some ⟨.Unknown 10, 9⟩]).2.1 ⟨.Unknown 10, 2⟩ (by decide)⟩

/-- The experimental settings of the C5 counterexample: two distinct unknown
codes, 7 and 10. -/
def c5ExpSettings : ExperimentalSettings :=
  ((ExperimentalSettings.builder.push (Setting.from_id (.Unknown 7) 1)).push
    (Setting.from_id (.Unknown 10) 2)).build

/-- The C5 counterexample settings: both experimental settings attached, but
only `Unknown 7` present in the order. -/
def c5Settings : Settings :=
  (Settings.default.set_experimental_settings c5ExpSettings).set_settings_order
    (SettingsOrder.builder.push (.Unknown 7)).build

/-- Claim C5 counterexample: with experimental settings for codes 7 and 10
attached and the order containing the unknown identifier 7, the emission
contains only the code-7 setting; the attached code-10 setting is not
emitted, refuting that reaching an unknown-identifier slot emits all
attached experimental settings. -/
theorem claim_C5_counterexample :
    (⟨.Unknown 10, 2⟩ : Setting) ∈ c5ExpSettings.settings
      ∧ SettingId.Unknown 7 ∈ c5Settings.settings_order.ids
      ∧ c5Settings.forEachList = [⟨.Unknown 7, 1⟩]
      ∧ (⟨.Unknown 10, 2⟩ : Setting) ∉ c5Settings.forEachList := by
  refine ⟨by decide, by decide, by decide, by decide⟩

/-- Claim C5 as amended: the encoded head carries a payload length of 6 bytes
per emitted record and the payload has exactly that many bytes; the emission
walks the order, a standard identifier emitting its present field and an
unknown identifier emitting only the first attached experimental setting
carrying that exact identifier, if any. -/
theorem claim_C5_emission_shape (s : Settings) :
    (s.encode).payloadLen = 6 * (s.forEachList).length
      ∧ (s.encode).payload.length = (s.encode).payloadLen
      ∧ s.forEachList = s.settings_order.ids.flatMap (specEmit s) :=
  ⟨rfl,
   by
    show ((s.forEachList).flatMap Setting.encodeBytes).length = s.payload_len
    rw [flatMap_encode_length]
    rfl,
   forEach_eq_specEmit s⟩

theorem mem_optRecord (st : Setting) (k : SettingId) (o : Option Nat) :
    st ∈ optRecord k o ↔ ∃ v, o = some v ∧ st = ⟨k, v⟩ := by
  cases o <;> simp [optRecord]

theorem foldl_optRecord_eq (k : SettingId) (o : Option Nat) (acc : Option Nat) :
    List.foldl (fun acc r => if r.id = k then some r.value else acc) acc (optRecord k o)
      = match o with
        | some v => some v
        | none => acc := by
  cases o <;> simp [optRecord]

theorem foldl_optRecord_ne (k ki : SettingId) (o : Option Nat) (acc : Option Nat)
    (h : ki ≠ k) :
    List.foldl (fun acc r => if r.id = k then some r.value else acc) acc (optRecord ki o)
      = acc := by
  cases o <;> simp [optRecord, h]

/-- A `Settings` holding the given standard fields with empty flags, default
order and no experimental settings: the state reached from `default` by the
standard setters (each `Option`-taking setter writes its field verbatim, the
`bool` setters write `some 0` or `some 1`, and `set_max_frame_size` writes
values it accepts). -/
def mkStandardSettings (hts ep mcs iws mfs mhls ecp nop : Option Nat) : Settings :=
  ⟨SettingsFlags.empty, hts, ep, mcs, iws, mfs, mhls, ecp, nop, none,
   SettingsOrder.default⟩

/-- Claim C4 counterexample: `set_initial_window_size (some (2 ^ 31))` is a
reachable standard-setter state, yet encoding and decoding it fails with
`InvalidSettingValue` instead of returning identical fields. -/
theorem claim_C4_counterexample :
    Settings.load
        ((Settings.default.set_initial_window_size (some (2 ^ 31))).encode).head
        ((Settings.default.set_initial_window_size (some (2 ^ 31))).encode).payload
      = .error .InvalidSettingValue := by
  decide

/-- Claim C4 as amended: for every `Settings` built purely through the
standard setters with the default order whose present values additionally lie
in the decode domains (`enable_connect_protocol` in 0 or 1, initial window at
most `2 ^ 31 - 1`; the boolean setters and the checked `max_frame_size`
setter already guarantee the rest), encoding and then decoding the produced
frame yields a `Settings` whose eight standard fields equal the original
ones. -/
theorem claim_C4_roundtrip (hts ep mcs iws mfs mhls ecp nop : Option Nat)
    (hhts : ∀ v ∈ hts, v < 2 ^ 32)
    (hep : ep = none ∨ ep = some 0 ∨ ep = some 1)
    (hmcs : ∀ v ∈ mcs, v < 2 ^ 32)
    (hiws : ∀ v ∈ iws, v ≤ 2 ^ 31 - 1)
    (hmfs : ∀ v ∈ mfs, 16384 ≤ v ∧ v ≤ 2 ^ 24 - 1)
    (hmhls : ∀ v ∈ mhls, v < 2 ^ 32)
    (hecp : ecp = none ∨ ecp = some 0 ∨ ecp = some 1)
    (hnop : nop = none ∨ nop = some 0 ∨ nop = some 1) :
    ∃ t, Settings.load
          ((mkStandardSettings hts ep mcs iws mfs mhls ecp nop).encode).head
          ((mkStandardSettings hts ep mcs iws mfs mhls ecp nop).encode).payload
        = .ok t
      ∧ t.header_table_size = hts ∧ t.enable_push = ep
      ∧ t.max_concurrent_streams = mcs ∧ t.initial_window_size = iws
      ∧ t.max_frame_size = mfs ∧ t.max_header_list_size = mhls
      ∧ t.enable_connect_protocol = ecp ∧ t.no_rfc7540_priorities = nop := by
  have hrecs : (mkStandardSettings hts ep mcs iws mfs mhls ecp nop).forEachList
      = optRecord .HeaderTableSize hts ++ (optRecord .EnablePush ep
        ++ (optRecord .MaxConcurrentStreams mcs ++ (optRecord .InitialWindowSize iws
        ++ (optRecord .MaxFrameSize mfs ++ (optRecord .MaxHeaderListSize mhls
        ++ (optRecord .EnableConnectProtocol ecp ++ optRecord .NoRfc7540Priorities nop)))))) := by
    rw [forEach_eq_specEmit]
    simp [mkStandardSettings, SettingsOrder.default, SettingId.DEFAULT_IDS, specEmit, fieldVal]
  have hvalid : ∀ st ∈ (mkStandardSettings hts ep mcs iws mfs mhls ecp nop).forEachList,
      st.id.isStandard = true ∧ st.value < 2 ^ 32 ∧ settingOk st = true := by
    intro st hst
    rw [hrecs] at hst
    simp only [List.mem_append] at hst
    rcases hst with h | h | h | h | h | h | h | h
    · obtain ⟨v, hv, rfl⟩ := (mem_optRecord st _ _).mp h
      exact ⟨rfl, hhts v hv, rfl⟩
    · obtain ⟨v, hv, rfl⟩ := (mem_optRecord st _ _).mp h
      rcases hep with h0 | h0 | h0 <;> rw [h0] at hv
      · cases hv
      · injection hv with hv
        subst hv
        exact ⟨rfl, by decide, by decide⟩
      · injection hv with hv
        subst hv
        exact ⟨rfl, by decide, by decide⟩
    · obtain ⟨v, hv, rfl⟩ := (mem_optRecord st _ _).mp h
      exact ⟨rfl, hmcs v hv, rfl⟩
    · obtain ⟨v, hv, rfl⟩ := (mem_optRecord st _ _).mp h
      have hb := hiws v hv
      refine ⟨rfl, by show v < 2 ^ 32; omega, ?_⟩
      simp only [settingOk, decide_eq_true_eq]
      omega
    · obtain ⟨v, hv, rfl⟩ := (mem_optRecord st _ _).mp h
      have hb := hmfs v hv
      refine ⟨rfl, by show v < 2 ^ 32; omega, ?_⟩
      simp only [settingOk, decide_eq_true_eq]
      omega
    · obtain ⟨v, hv, rfl⟩ := (mem_optRecord st _ _).mp h
      exact ⟨rfl, hmhls v hv, rfl⟩
    · obtain ⟨v, hv, rfl⟩ := (mem_optRecord st _ _).mp h
      rcases hecp with h0 | h0 | h0 <;> rw [h0] at hv
      · cases hv
      · injection hv with hv
        subst hv
        exact ⟨rfl, by decide, by decide⟩
      · injection hv with hv
        subst hv
        exact ⟨rfl, by decide, by decide⟩
    · obtain ⟨v, hv, rfl⟩ := (mem_optRecord st _ _).mp h
      rcases hnop with h0 | h0 | h0 <;> rw [h0] at hv
      · cases hv
      · injection hv with hv
        subst hv
        exact ⟨rfl, by decide, by decide⟩
      · injection hv with hv
        subst hv
        exact ⟨rfl, by decide, by decide⟩
  have hallOk : ∀ st ∈ (mkStandardSettings hts ep mcs iws mfs mhls ecp nop).forEachList,
      settingOk st = true := fun st h => (hvalid st h).2.2
  have hstd32 : ∀ st ∈ (mkStandardSettings hts ep mcs iws mfs mhls ecp nop).forEachList,
      st.id.isStandard = true ∧ st.value < 2 ^ 32 :=
    fun st h => ⟨(hvalid st h).1, (hvalid st h).2.1⟩
  have hlen : ((mkStandardSettings hts ep mcs iws mfs mhls ecp nop).encode).payload.length % 6
      = 0 := by
    show ((mkStandardSettings hts ep mcs iws mfs mhls ecp nop).forEachList.flatMap
      Setting.encodeBytes).length % 6 = 0
    rw [flatMap_encode_length]
    simp [Nat.mul_mod_right]
  have hload : Settings.load
        ((mkStandardSettings hts ep mcs iws mfs mhls ecp nop).encode).head
        ((mkStandardSettings hts ep mcs iws mfs mhls ecp nop).encode).payload
      = loadSettingsList ((mkStandardSettings hts ep mcs iws mfs mhls ecp nop).forEachList)
          Settings.default := by
    have hackf : (SettingsFlags.load
        ((mkStandardSettings hts ep mcs iws mfs mhls ecp nop).encode).head.flag).is_ack
        = false := by
      show (SettingsFlags.load SettingsFlags.empty.bits).is_ack = false
      decide
    rw [load_nonack ((mkStandardSettings hts ep mcs iws mfs mhls ecp nop).encode).head
      ((mkStandardSettings hts ep mcs iws mfs mhls ecp nop).encode).payload rfl hackf hlen]
    show Settings.loadChunks
        (chunks6 ((mkStandardSettings hts ep mcs iws mfs mhls ecp nop).forEachList.flatMap
          Setting.encodeBytes)) Settings.default = _
    rw [chunks6_flatMap, loadChunks_eq_loadSettingsList, filterMap_load_encode _ hstd32]
  obtain ⟨t, ht⟩ := (loadSettingsList_ok_iff _ Settings.default).mpr hallOk
  have hfield : ∀ k : SettingId, k.isStandard = true →
      fieldVal k t = lastValD ((mkStandardSettings hts ep mcs iws mfs mhls ecp nop).forEachList)
        k (fieldVal k Settings.default) :=
    loadSettingsList_last _ Settings.default t ht
  refine ⟨t, by rw [hload]; exact ht, ?_, ?_, ?_, ?_, ?_, ?_, ?_, ?_⟩
  · have h := hfield .HeaderTableSize rfl
    rw [hrecs] at h
    simp only [lastValD, List.foldl_append, foldl_optRecord_eq] at h
    rw [foldl_optRecord_ne _ _ _ _ (by decide), foldl_optRecord_ne _ _ _ _ (by decide),
      foldl_optRecord_ne _ _ _ _ (by decide), foldl_optRecord_ne _ _ _ _ (by decide),
      foldl_optRecord_ne _ _ _ _ (by decide), foldl_optRecord_ne _ _ _ _ (by decide),
      foldl_optRecord_ne _ _ _ _ (by decide)] at h
    rw [show fieldVal .HeaderTableSize t = t.header_table_size from rfl] at h
    rw [h]
    cases hts <;> rfl
  · have h := hfield .EnablePush rfl
    rw [hrecs] at h
    simp only [lastValD, List.foldl_append, foldl_optRecord_eq] at h
    rw [foldl_optRecord_ne _ _ _ _ (by decide), foldl_optRecord_ne _ _ _ _ (by decide),
      foldl_optRecord_ne _ _ _ _ (by decide), foldl_optRecord_ne _ _ _ _ (by decide),
      foldl_optRecord_ne _ _ _ _ (by decide), foldl_optRecord_ne _ _ _ _ (by decide),
      foldl_optRecord_ne _ _ _ _ (by decide)] at h
    rw [show fieldVal .EnablePush t = t.enable_push from rfl] at h
    rw [h]
    cases ep <;> rfl
  · have h := hfield .MaxConcurrentStreams rfl
    rw [hrecs] at h
    simp only [lastValD, List.foldl_append, foldl_optRecord_eq] at h
    rw [foldl_optRecord_ne _ _ _ _ (by decide), foldl_optRecord_ne _ _ _ _ (by decide),
      foldl_optRecord_ne _ _ _ _ (by decide), foldl_optRecord_ne _ _ _ _ (by decide),
      foldl_optRecord_ne _ _ _ _ (by decide), foldl_optRecord_ne _ _ _ _ (by decide),
      foldl_optRecord_ne _ _ _ _ (by decide)] at h
    rw [show fieldVal .MaxConcurrentStreams t = t.max_concurrent_streams from rfl] at h
    rw [h]
    cases mcs <;> rfl
  · have h := hfield .InitialWindowSize rfl
    rw [hrecs] at h
    simp only [lastValD, List.foldl_append, foldl_optRecord_eq] at h
    rw [foldl_optRecord_ne _ _ _ _ (by decide), foldl_optRecord_ne _ _ _ _ (by decide),
      foldl_optRecord_ne _ _ _ _ (by decide), foldl_optRecord_ne _ _ _ _ (by decide),
      foldl_optRecord_ne _ _ _ _ (by decide), foldl_optRecord_ne _ _ _ _ (by decide),
      foldl_optRecord_ne _ _ _ _ (by decide)] at h
    rw [show fieldVal .InitialWindowSize t = t.initial_window_size from rfl] at h
    rw [h]
    cases iws <;> rfl
  · have h := hfield .MaxFrameSize rfl
    rw [hrecs] at h
    simp only [lastValD, List.foldl_append, foldl_optRecord_eq] at h
    rw [foldl_optRecord_ne _ _ _ _ (by decide), foldl_optRecord_ne _ _ _ _ (by decide),
      foldl_optRecord_ne _ _ _ _ (by decide), foldl_optRecord_ne _ _ _ _ (by decide),
      foldl_optRecord_ne _ _ _ _ (by decide), foldl_optRecord_ne _ _ _ _ (by decide),
      foldl_optRecord_ne _ _ _ _ (by decide)] at h
    rw [show fieldVal .MaxFrameSize t = t.max_frame_size from rfl] at h
    rw [h]
    cases mfs <;> rfl
  · have h := hfield .MaxHeaderListSize rfl
    rw [hrecs] at h
    simp only [lastValD, List.foldl_append, foldl_optRecord_eq] at h
    rw [foldl_optRecord_ne _ _ _ _ (by decide), foldl_optRecord_ne _ _ _ _ (by decide),
      foldl_optRecord_ne _ _ _ _ (by decide), foldl_optRecord_ne _ _ _ _ (by decide),
      foldl_optRecord_ne _ _ _ _ (by decide), foldl_optRecord_ne _ _ _ _ (by decide),
      foldl_optRecord_ne _ _ _ _ (by decide)] at h
    rw [show fieldVal .MaxHeaderListSize t = t.max_header_list_size from rfl] at h
    rw [h]
    cases mhls <;> rfl
  · have h := hfield .EnableConnectProtocol rfl
    rw [hrecs] at h
    simp only [lastValD, List.foldl_append, foldl_optRecord_eq] at h
    rw [foldl_optRecord_ne _ _ _ _ (by decide), foldl_optRecord_ne _ _ _ _ (by decide),
      foldl_optRecord_ne _ _ _ _ (by decide), foldl_optRecord_ne _ _ _ _ (by decide),
      foldl_optRecord_ne _ _ _ _ (by decide), foldl_optRecord_ne _ _ _ _ (by decide),
      foldl_optRecord_ne _ _ _ _ (by decide)] at h
    rw [show fieldVal .EnableConnectProtocol t = t.enable_connect_protocol from rfl] at h
    rw [h]
    cases ecp <;> rfl
  · have h := hfield .NoRfc7540Priorities rfl
    rw [hrecs] at h
    simp only [lastValD, List.foldl_append, foldl_optRecord_eq] at h
    rw [foldl_optRecord_ne _ _ _ _ (by decide), foldl_optRecord_ne _ _ _ _ (by decide),
      foldl_optRecord_ne _ _ _ _ (by decide), foldl_optRecord_ne _ _ _ _ (by decide),
      foldl_optRecord_ne _ _ _ _ (by decide), foldl_optRecord_ne _ _ _ _ (by decide),
      foldl_optRecord_ne _ _ _ _ (by decide)] at h
    rw [show fieldVal .NoRfc7540Priorities t = t.no_rfc7540_priorities from rfl] at h
    rw [h]
    cases nop <;> rfl

/-- Claim C4 amended witness at a concrete setter-reachable state with all
domains respected. -/
theorem claim_C4_roundtrip_witness :
    ∃ t, Settings.load
          ((mkStandardSettings (some 4096) (some 1) none (some 65535) (some 16384) none
            (some 0) (some 1)).encode).head
          ((mkStandardSettings (some 4096) (some 1) none (some 65535) (some 16384) none
            (some 0) (some 1)).encode).payload
        = .ok t
      ∧ t.header_table_size = some 4096 ∧ t.enable_push = some 1
      ∧ t.max_concurrent_streams = none ∧ t.initial_window_size = some 65535
      ∧ t.max_frame_size = some 16384 ∧ t.max_header_list_size = none
      ∧ t.enable_connect_protocol = some 0 ∧ t.no_rfc7540_priorities = some 1 :=
  claim_C4_roundtrip (some 4096) (some 1) none (some 65535) (some 16384) none (some 0) (some 1)
    (by intro v hv; rw [Option.mem_def] at hv; injection hv with hv; omega)
    (Or.inr (Or.inr rfl))
    (by intro v hv; simp [Option.mem_def] at hv)
    (by intro v hv; rw [Option.mem_def] at hv; injection hv with hv; omega)
    (by intro v hv; rw [Option.mem_def] at hv; injection hv with hv; omega)
    (by intro v hv; simp [Option.mem_def] at hv)
    (Or.inr (Or.inl rfl))
    (Or.inr (Or.inr rfl))

end H2
